import Mathlib

/-!
FusionCompute VM manager, `pkg/vm/vm.go`.

A shallow embedding of the VM manager of the FusionCompute Go SDK and the
properties of its operations.

* Go strings are Lean strings; every library routine used by the source works
  on ASCII bytes only (`.`, sign characters, digits), so reading a string as
  its list of characters agrees with reading it as its list of bytes.
* A Go `(value, error)` return is a pair whose error component is an
  `Option Error`; `none` is Go's `nil`.
* A run-time panic (slice or index out of range, nil dereference) is the
  outer `Option` being `none`.
* The HTTP collaborator is a parameter (`Env`); every request that is issued is
  appended to a log carried in `Net`, so that "no request was sent" and "which
  body was sent" are statements about that log.
-/

deriving instance DecidableEq for Except

namespace FusionCompute

/-! ## Library routines used by the source -/

/-- The two sentinel causes carried by a `*strconv.NumError`. -/
inductive NumErr
  | invalidSyntax
  | outOfRange
  deriving DecidableEq, Repr

/-- Go `error` values that can flow through the manager.  `numError` is
`*strconv.NumError`; `cannotParseNetmask cause` stands for
`errors.New(fmt.Sprintf("can not parse netmask: %s", cause.Error()))`;
`foreign` is any error made by a collaborator (client, transport, JSON
decoder, HTTP error formatter), identified by its message. -/
inductive Error
  | numError (func num : String) (err : NumErr)
  | cannotParseNetmask (cause : Error)
  | foreign (msg : String)
  deriving DecidableEq, Repr

/-- Substring search on character lists: does `sub` occur in `s`? -/
def containsAt : List Char → List Char → Bool
  | [], sub => sub.isEmpty
  | c :: cs, sub => sub.isPrefixOf (c :: cs) || containsAt cs sub

/-- Go `strings.Contains(s, substr)`. -/
def strings.Contains (s substr : String) : Bool :=
  containsAt s.data substr.data

/-- Value of a digit character as `strconv.ParseUint` reads it: `0`-`9`, then
letters of either case from ten upwards. -/
def digitOf (c : Char) : Option Nat :=
  let n := c.toNat
  if 48 ≤ n ∧ n ≤ 57 then some (n - 48)
  else if 97 ≤ n ∧ n ≤ 122 then some (n - 97 + 10)
  else if 65 ≤ n ∧ n ≤ 90 then some (n - 65 + 10)
  else none

/-- Largest `uint64`. -/
def maxUint64 : Nat := 2 ^ 64 - 1

/-- The digit loop of `strconv.ParseUint` for an explicit base and 64 bits:
`none` is a syntax error, `some (v, true)` a range error with `v` the largest
value, `some (v, false)` the parsed value. -/
def parseUintLoop (base : Nat) : List Char → Nat → Option (Nat × Bool)
  | [], n => some (n, false)
  | c :: cs, n =>
    match digitOf c with
    | none => none
    | some d =>
      if base ≤ d then none
      else if maxUint64 < n * base + d then some (maxUint64, true)
      else parseUintLoop base cs (n * base + d)

/-- Go `strconv.ParseUint(s, base, 64)` for an explicit base from 2 to 36: the
value is returned alongside the error, as in Go (0 on a syntax error, the
largest value on a range error). -/
def strconv.ParseUint (s : String) (base : Nat) : Nat × Option Error :=
  match s.data with
  | [] => (0, some (Error.numError "ParseUint" s NumErr.invalidSyntax))
  | c :: cs =>
    match parseUintLoop base (c :: cs) 0 with
    | none => (0, some (Error.numError "ParseUint" s NumErr.invalidSyntax))
    | some (v, true) => (v, some (Error.numError "ParseUint" s NumErr.outOfRange))
    | some (v, false) => (v, none)

/-- Go `strconv.Atoi(s)` on a 64-bit platform: an optional sign, then at least
one decimal digit, the value within `int64`. -/
def strconv.Atoi (s : String) : Except Error Int :=
  match s.data with
  | [] => Except.error (Error.numError "Atoi" s NumErr.invalidSyntax)
  | c :: cs =>
    let neg : Bool := c = '-'
    let digits : List Char := if c = '-' ∨ c = '+' then cs else c :: cs
    match strconv.ParseUint (String.mk digits) 10 with
    | (_, some (Error.numError _ _ NumErr.outOfRange)) =>
      Except.error (Error.numError "Atoi" s NumErr.outOfRange)
    | (_, some _) => Except.error (Error.numError "Atoi" s NumErr.invalidSyntax)
    | (un, none) =>
      if neg = false ∧ 2 ^ 63 ≤ un then
        Except.error (Error.numError "Atoi" s NumErr.outOfRange)
      else if neg = true ∧ 2 ^ 63 < un then
        Except.error (Error.numError "Atoi" s NumErr.outOfRange)
      else Except.ok (if neg then -(un : Int) else (un : Int))

/-- Character of a decimal digit. -/
def digitChar : Nat → Char
  | 0 => '0' | 1 => '1' | 2 => '2' | 3 => '3' | 4 => '4'
  | 5 => '5' | 6 => '6' | 7 => '7' | 8 => '8' | _ => '9'

/-- Decimal digits of `u`, most significant first, written in front of `acc`;
the first argument bounds the number of digits. -/
def decimalDigits : Nat → Nat → List Char → List Char
  | 0, _, acc => acc
  | fuel + 1, u, acc =>
    if u < 10 then digitChar u :: acc
    else decimalDigits fuel (u / 10) (digitChar (u % 10) :: acc)

/-- Go `%v` of a `uint64`: its decimal digits, no leading zeros (a `uint64`
has at most twenty digits). -/
def formatUint (u : Nat) : String :=
  String.mk (decimalDigits 20 u [])

/-- Go `fmt.Sprintf("%v.%v.%v.%v", a, b, c, d)` on four `uint64` values. -/
def sprintfDotted (a b c d : Nat) : String :=
  formatUint a ++ "." ++ formatUint b ++ "." ++ formatUint c ++ "." ++ formatUint d

/-- Go slice expression `s[lo:hi]` on a string; `none` is the out-of-range
panic. -/
def goSlice (s : List Char) (lo hi : Nat) : Option (List Char) :=
  if lo ≤ hi ∧ hi ≤ s.length then some ((s.take hi).drop lo) else none

/-! ## `parseMask` -/

/-- A counting loop whose body is `buff.WriteString(c)`, run `k` times. -/
def writeRun (c : Char) : Nat → List Char → List Char
  | 0, buff => buff
  | k + 1, buff => writeRun c k (buff ++ [c])

/-- Source `parseMask(num int) (mask string, err error)`.  The first loop runs
for `i` from `0` while `i < num`, the second for `i` from `num` while
`i < 32`. -/
def parseMask (num : Int) : Option (String × Option Error) :=
  let buff := writeRun '1' num.toNat []
  let masker := writeRun '0' (32 - num).toNat buff
  match goSlice masker 0 8, goSlice masker 8 16, goSlice masker 16 24, goSlice masker 24 32 with
  | some s0, some s1, some s2, some s3 =>
    let a := (strconv.ParseUint (String.mk s0) 2).1
    let b := (strconv.ParseUint (String.mk s1) 2).1
    let c := (strconv.ParseUint (String.mk s2) 2).1
    let d := (strconv.ParseUint (String.mk s3) 2).1
    some (sprintfDotted a b c d, none)
  | _, _, _, _ => none

/-! ## Data model

The type declarations of the package live in a file that is not part of the
sources at hand; the structures below carry the fields `vm.go` reads or writes
under their source names, and every other field in `other`. -/

/-- Modelled from the spec: the NIC specification type is declared outside
`vm.go`; `Netmask` is the field the clone pre-processing rewrites. -/
structure NicSpecification where
  Netmask : String
  other : String
  deriving DecidableEq, Repr

/-- Modelled from the spec: the disk type is declared outside `vm.go`;
`QuantityGB` is the disk size in gigabytes. -/
structure Disk where
  QuantityGB : Int
  other : String
  deriving DecidableEq, Repr

/-- Modelled from the spec: customization block of a clone request, an ordered
sequence of NIC specifications. -/
structure Customization where
  NicSpecification : List NicSpecification
  other : String
  deriving DecidableEq, Repr

/-- Modelled from the spec: target configuration of a clone request, and the
configuration of a fetched VM. -/
structure Config where
  Disks : List Disk
  other : String
  deriving DecidableEq, Repr

/-- Modelled from the spec: the clone request. -/
structure CloneVmRequest where
  Config : Config
  VmCustomization : Customization
  other : String
  deriving DecidableEq, Repr

/-- Modelled from the spec: VM detail as decoded from the platform. -/
structure Vm where
  VmConfig : Config
  HostName : String
  other : String
  deriving DecidableEq, Repr

/-- Modelled from the spec: decoded list response; `Vms` is a slice that may
be nil. -/
structure ListVmResponse where
  Vms : Option (List Vm)
  other : String
  deriving DecidableEq, Repr

/-- Modelled from the spec: the decoded response of the clone action, declared
outside `vm.go` and never inspected by it. -/
structure CloneVmResponse where
  other : String
  deriving DecidableEq, Repr

/-- Modelled from the spec: the decoded response of the start action, declared outside `vm.go` and never
inspected by it. -/
structure StartVmResponse where
  other : String
  deriving DecidableEq, Repr

/-- Modelled from the spec: the decoded response of a delete, declared outside `vm.go` and never
inspected by it. -/
structure DeleteVmResponse where
  other : String
  deriving DecidableEq, Repr

/-- Modelled from the spec: the decoded response of the reboot action, declared outside `vm.go` and never
inspected by it. -/
structure RebootVmResponse where
  other : String
  deriving DecidableEq, Repr

/-- Modelled from the spec: the decoded response of the migrate action, declared outside `vm.go` and never
inspected by it. -/
structure MigrateVmResponse where
  other : String
  deriving DecidableEq, Repr

/-- Modelled from the spec: the body of an image upload, declared outside `vm.go` and never
inspected by it. -/
structure ImportTemplateRequest where
  other : String
  deriving DecidableEq, Repr

/-- Modelled from the spec: the decoded response of an image upload, declared outside `vm.go` and never
inspected by it. -/
structure ImportTemplateResponse where
  other : String
  deriving DecidableEq, Repr

/-! ## The HTTP collaborator -/

inductive Method
  | GET
  | POST
  | DELETE
  deriving DecidableEq, Repr

/-- What `SetBody` was given.  A Go `map[string]string` literal is the list of
its entries in source order. -/
inductive Body
  | empty
  | stringMap (entries : List (String × String))
  | cloneVm (request : CloneVmRequest)
  | importTemplate (request : ImportTemplateRequest)
  deriving DecidableEq, Repr

/-- One request as handed to the HTTP client. -/
structure Request where
  method : Method
  url : String
  query : List (String × String)
  body : Body
  deriving DecidableEq, Repr

/-- A completed HTTP response: status code and raw body. -/
structure Response where
  StatusCode : Int
  Body : String
  deriving DecidableEq, Repr

/-- The client library's `IsSuccess`: status strictly between 199 and 300. -/
def Response.IsSuccess (r : Response) : Bool :=
  decide (199 < r.StatusCode ∧ r.StatusCode < 300)

/-- A request that was issued together with how it ended: a transport error or
a response. -/
structure Exchange where
  request : Request
  reply : Except Error Response
  deriving DecidableEq

/-- What has happened on the network side so far: how many times the API client
was asked for, and every request issued, oldest first. -/
structure Net where
  clientCalls : Nat
  log : List Exchange
  deriving DecidableEq

/-- The collaborators of the manager.  All of them live outside `vm.go` and are
parameters: obtaining the API client, the HTTP round trip (both may depend on
everything that happened before), the shared HTTP error formatter
`common.FormatHttpError` (it builds an error from a response, so its result is
never nil), `path.Join`, and `json.Unmarshal` at each response type. -/
structure Env where
  GetApiClient : Net → Option Error
  roundTrip : Net → Request → Except Error Response
  FormatHttpError : Response → Error
  pathJoin : List String → String
  unmarshalVm : String → Except Error Vm
  unmarshalListVm : String → Except Error ListVmResponse
  unmarshalCloneVm : String → Except Error CloneVmResponse
  unmarshalStartVm : String → Except Error StartVmResponse
  unmarshalDeleteVm : String → Except Error DeleteVmResponse
  unmarshalRebootVm : String → Except Error RebootVmResponse
  unmarshalMigrateVm : String → Except Error MigrateVmResponse
  unmarshalImportTemplate : String → Except Error ImportTemplateResponse

/-- Source `type manager struct`: the client is the environment, `siteUri` the
configured site. -/
structure manager where
  siteUri : String
  deriving DecidableEq, Repr

/-- A Go `(result, error)` return whose result may be nil. -/
abbrev Ret (α : Type) : Type := Option α × Option Error

/-- The call `m.client.GetApiClient()`: its error, and the network state after
it. -/
def obtainClient (env : Env) (net : Net) : Option Error × Net :=
  (env.GetApiClient net, { net with clientCalls := net.clientCalls + 1 })

/-- Execute one request and record it in the log. -/
def send (env : Env) (req : Request) (net : Net) : Except Error Response × Net :=
  (env.roundTrip net req, { net with log := net.log ++ [⟨req, env.roundTrip net req⟩] })

/-- The tail shared by every operation, from `if err != nil` after the request
to the final `return`: a transport error is returned as is, a success status
is decoded, any other status goes through `common.FormatHttpError`. -/
def finish {α : Type} (env : Env) (unmarshal : String → Except Error α)
    (reply : Except Error Response) : Ret α :=
  match reply with
  | Except.error err => (none, some err)
  | Except.ok resp =>
    if resp.IsSuccess then
      match unmarshal resp.Body with
      | Except.error err => (none, some err)
      | Except.ok item => (some item, none)
    else (none, some (env.FormatHttpError resp))

/-- The requests issued between two network states. -/
def issued (before after : Net) : List Exchange :=
  after.log.drop before.log.length

/-! ## Operations of the manager -/

/-- Source `manager.GetVM`. -/
def GetVM (env : Env) (_m : manager) (vmUri : String) (net : Net) : Ret Vm × Net :=
  match obtainClient env net with
  | (some err, net1) => ((none, some err), net1)
  | (none, net1) =>
    match send env ⟨Method.GET, vmUri, [], Body.empty⟩ net1 with
    | (reply, net2) => (finish env env.unmarshalVm reply, net2)

/-- Source `strings.Replace(vmUrl, siteMask, m.siteUri, -1)` with
`vmUrl = "<site_uri>/vms"` and `siteMask = "<site_uri>"`: the mask occurs once,
at the start, and replaced text is not scanned again. -/
def listUrl (m : manager) : String :=
  m.siteUri ++ "/vms"

/-- The tail of `ListVm` after the request (source lines 96 to 109): as in the
other operations, except that the result is the `Vms` slice of the decoded
response. -/
def finishList (env : Env) (reply : Except Error Response) : Ret (List Vm) :=
  match reply with
  | Except.error err => (none, some err)
  | Except.ok resp =>
    if resp.IsSuccess then
      match env.unmarshalListVm resp.Body with
      | Except.error err => (none, some err)
      | Except.ok listVmResponse => (listVmResponse.Vms, none)
    else (none, some (env.FormatHttpError resp))

/-- Source `manager.ListVm`. -/
def ListVm (env : Env) (m : manager) (isTemplate : Bool) (net : Net) :
    Ret (List Vm) × Net :=
  match obtainClient env net with
  | (some err, net1) => ((none, some err), net1)
  | (none, net1) =>
    let query := if isTemplate then [("isTemplate", "true")] else []
    match send env ⟨Method.GET, listUrl m, query, Body.empty⟩ net1 with
    | (reply, net2) => (finishList env reply, net2)

/-- Source `manager.StartVm`. -/
def StartVm (env : Env) (_m : manager) (vmUri : String) (net : Net) :
    Ret StartVmResponse × Net :=
  match obtainClient env net with
  | (some err, net1) => ((none, some err), net1)
  | (none, net1) =>
    match send env ⟨Method.POST, env.pathJoin [vmUri, "/action/start"], [], Body.empty⟩ net1 with
    | (reply, net2) => (finish env env.unmarshalStartVm reply, net2)

/-- Source `manager.DeleteVm`. -/
def DeleteVm (env : Env) (_m : manager) (vmUri : String) (net : Net) :
    Ret DeleteVmResponse × Net :=
  match obtainClient env net with
  | (some err, net1) => ((none, some err), net1)
  | (none, net1) =>
    match send env ⟨Method.DELETE, vmUri, [], Body.empty⟩ net1 with
    | (reply, net2) => (finish env env.unmarshalDeleteVm reply, net2)

/-- Source `manager.RebootVM`. -/
def RebootVM (env : Env) (_m : manager) (vmUri : String) (safe : Bool) (net : Net) :
    Ret RebootVmResponse × Net :=
  match obtainClient env net with
  | (some err, net1) => ((none, some err), net1)
  | (none, net1) =>
    let sent :=
      if safe then
        send env ⟨Method.POST, env.pathJoin [vmUri, "/action/reboot"], [],
          Body.stringMap [("mode", "safe")]⟩ net1
      else
        send env ⟨Method.POST, env.pathJoin [vmUri, "/action/reboot"], [],
          Body.stringMap [("mode", "force")]⟩ net1
    (finish env env.unmarshalRebootVm sent.1, sent.2)

/-- Source `manager.MigrateVM`. -/
def MigrateVM (env : Env) (_m : manager) (vmUri hostUrn : String) (isBindingHost : Bool)
    (net : Net) : Ret MigrateVmResponse × Net :=
  match obtainClient env net with
  | (some err, net1) => ((none, some err), net1)
  | (none, net1) =>
    let sent :=
      if isBindingHost then
        send env ⟨Method.POST, env.pathJoin [vmUri, "/action/migrate"], [],
          Body.stringMap [("location", hostUrn), ("isBindingHost", "true")]⟩ net1
      else
        send env ⟨Method.POST, env.pathJoin [vmUri, "/action/migrate"], [],
          Body.stringMap [("location", hostUrn), ("isBindingHost", "false")]⟩ net1
    (finish env env.unmarshalMigrateVm sent.1, sent.2)

/-- Source `manager.UploadImage`. -/
def UploadImage (env : Env) (_m : manager) (vmUri : String) (request : ImportTemplateRequest)
    (net : Net) : Ret ImportTemplateResponse × Net :=
  match obtainClient env net with
  | (some err, net1) => ((none, some err), net1)
  | (none, net1) =>
    match send env ⟨Method.POST, env.pathJoin [vmUri, "action", "import"], [],
        Body.importTemplate request⟩ net1 with
    | (reply, net2) => (finish env env.unmarshalImportTemplate reply, net2)

/-- Source `manager.GetHostNameOf`: the outer `none` is the nil dereference of
`resp.HostName`. -/
def GetHostNameOf (env : Env) (m : manager) (vmUri : String) (net : Net) :
    Option (String × Option Error) × Net :=
  match GetVM env m vmUri net with
  | ((_, some err), net1) => (some ("", some err), net1)
  | ((none, none), net1) => (none, net1)
  | ((some resp, none), net1) => (some (resp.HostName, none), net1)

/-- How one pass through a loop body ends: go on with the new state, leave the
function with an error, or panic. -/
inductive Flow (α : Type)
  | next (state : α)
  | fail (err : Error)
  | panic
  deriving DecidableEq

/-- Body of the NIC loop of `CloneVm` at index `n` (source lines 44 to 54).
The netmask that is parsed is the one at index `0`; the one that is tested
and overwritten is the one at index `n`. -/
def normalizeStep (n : Nat) (nics : List NicSpecification) : Flow (List NicSpecification) :=
  match nics[n]? with
  | none => Flow.panic
  | some nic =>
    if !strings.Contains nic.Netmask "." then
      match nics[0]? with
      | none => Flow.panic
      | some first =>
        match strconv.Atoi first.Netmask with
        | Except.error err => Flow.fail (Error.cannotParseNetmask err)
        | Except.ok b =>
          match parseMask b with
          | none => Flow.panic
          | some (_, some err) => Flow.fail (Error.cannotParseNetmask err)
          | some (mask, none) => Flow.next (nics.set n { nic with Netmask := mask })
    else Flow.next nics

/-- The loop `for n := range request.VmCustomization.NicSpecification`: `k`
iterations are left, the next index is `n`. -/
def normalizeLoop : Nat → Nat → List NicSpecification → Flow (List NicSpecification)
  | 0, _, nics => Flow.next nics
  | k + 1, n, nics =>
    match normalizeStep n nics with
    | Flow.next nics1 => normalizeLoop k (n + 1) nics1
    | Flow.fail err => Flow.fail err
    | Flow.panic => Flow.panic

/-- The whole NIC loop of `CloneVm`. -/
def normalizeNics (nics : List NicSpecification) : Flow (List NicSpecification) :=
  normalizeLoop nics.length 0 nics

/-- Source lines 60 to 64 of `CloneVm` on the two disk lists; `none` is the
index-out-of-range panic of `request.Config.Disks[0]`. -/
def raiseFirstDisk (requestDisks templateDisks : List Disk) : Option (List Disk) :=
  match templateDisks with
  | [] => some requestDisks
  | t0 :: _ =>
    match requestDisks with
    | [] => none
    | r0 :: rest =>
      if r0.QuantityGB < t0.QuantityGB then
        some ({ r0 with QuantityGB := t0.QuantityGB } :: rest)
      else some (r0 :: rest)

/-- Source `manager.CloneVm`; the outer `none` is a panic.  The request value
the function works on, with its NIC and disk lists as rewritten so far, is what
`SetBody(&request)` hands to the POST. -/
def CloneVm (env : Env) (m : manager) (templateUri : String) (request : CloneVmRequest)
    (net : Net) : Option (Ret CloneVmResponse) × Net :=
  match normalizeNics request.VmCustomization.NicSpecification with
  | Flow.panic => (none, net)
  | Flow.fail err => (some (none, some err), net)
  | Flow.next nics =>
    match GetVM env m templateUri net with
    | ((_, some err), net1) => (some (none, some err), net1)
    | ((none, none), net1) => (none, net1)
    | ((some vm, none), net1) =>
      match raiseFirstDisk request.Config.Disks vm.VmConfig.Disks with
      | none => (none, net1)
      | some disks =>
        match obtainClient env net1 with
        | (some err, net2) => (some (none, some err), net2)
        | (none, net2) =>
          let submitted : CloneVmRequest :=
            { request with
              VmCustomization := { request.VmCustomization with NicSpecification := nics }
              Config := { request.Config with Disks := disks } }
          match send env ⟨Method.POST, env.pathJoin [templateUri, "action", "clone"], [],
              Body.cloneVm submitted⟩ net2 with
          | (reply, net3) => (some (finish env env.unmarshalCloneVm reply), net3)

/-! ## A concrete platform, for evaluating the operations -/

/-- A platform that always hands out the client and answers every request with
status 200. -/
def okEnv : Env where
  GetApiClient := fun _ => none
  roundTrip := fun _ _ => Except.ok ⟨200, "ok"⟩
  FormatHttpError := fun resp => Error.foreign resp.Body
  pathJoin := fun parts => String.intercalate "/" parts
  unmarshalVm := fun _ => Except.ok ⟨⟨[⟨100, "disk"⟩], ""⟩, "host-1", ""⟩
  unmarshalListVm := fun _ => Except.ok ⟨some [], ""⟩
  unmarshalCloneVm := fun body => Except.ok ⟨body⟩
  unmarshalStartVm := fun body => Except.ok ⟨body⟩
  unmarshalDeleteVm := fun body => Except.ok ⟨body⟩
  unmarshalRebootVm := fun body => Except.ok ⟨body⟩
  unmarshalMigrateVm := fun body => Except.ok ⟨body⟩
  unmarshalImportTemplate := fun body => Except.ok ⟨body⟩

/-- A platform that answers every request with status 500. -/
def failingEnv : Env :=
  { okEnv with roundTrip := fun _ _ => Except.ok ⟨500, "boom"⟩ }

/-- A platform that answers every GET with status 200 and everything else with
status 500. -/
def postFailingEnv : Env :=
  { okEnv with
    roundTrip := fun _ req =>
      if req.method = Method.GET then Except.ok ⟨200, "ok"⟩ else Except.ok ⟨500, "boom"⟩ }

/-- Nothing has happened yet. -/
def freshNet : Net := ⟨0, []⟩

/-- A clone request with the given netmasks and disk sizes. -/
def cloneRequest (netmasks : List String) (sizes : List Int) : CloneVmRequest :=
  ⟨⟨sizes.map fun q => ⟨q, "disk"⟩, ""⟩, ⟨netmasks.map fun nm => ⟨nm, "nic"⟩, ""⟩, ""⟩

/-! ## Vocabulary for the statements -/

/-- The network state right after the API client was asked for. -/
def clientUsed (net : Net) : Net :=
  { net with clientCalls := net.clientCalls + 1 }

/-- The shape shared by the operations that issue one request: obtain the
client, issue the request, hand the reply to the tail `fin` of the
operation. -/
def oneShot {α : Type} (env : Env) (fin : Except Error Response → Ret α) (req : Request)
    (net : Net) : Ret α × Net :=
  match obtainClient env net with
  | (some err, net1) => ((none, some err), net1)
  | (none, net1) =>
    match send env req net1 with
    | (reply, net2) => (fin reply, net2)

/-- The request `ListVm` issues. -/
def listRequest (m : manager) (isTemplate : Bool) : Request :=
  ⟨Method.GET, listUrl m, if isTemplate then [("isTemplate", "true")] else [], Body.empty⟩

/-- A return is never a result together with an error. -/
def NoPartial {α : Type} (r : Ret α) : Prop :=
  ¬ (r.1.isSome = true ∧ r.2.isSome = true)

/-- Every exchange among `new` that completed with a non-success status makes
the return exactly: no result, and the error `common.FormatHttpError` gives for
that response. -/
def FailureFormatted {α : Type} (env : Env) (new : List Exchange) (r : Ret α) : Prop :=
  ∀ ex ∈ new, ∀ resp, ex.reply = Except.ok resp → resp.IsSuccess = false →
    r = (none, some (env.FormatHttpError resp))

/-- Both parts of the uniform failure contract for one run of an operation
that started in `net` and ended as `out`. -/
def Uniform {α : Type} (env : Env) (net : Net) (out : Ret α × Net) : Prop :=
  FailureFormatted env (issued net out.2) out.1 ∧ NoPartial out.1

/-- The uniform failure contract for an operation that can also panic: the
operation returns, with the formatted error, whenever an exchange failed. -/
def UniformOrPanic {α : Type} (env : Env) (net : Net) (out : Option (Ret α) × Net) : Prop :=
  (∀ ex ∈ issued net out.2, ∀ resp, ex.reply = Except.ok resp → resp.IsSuccess = false →
      out.1 = some (none, some (env.FormatHttpError resp)))
    ∧ ∀ r, out.1 = some r → NoPartial r

/-- The request value `CloneVm` holds when it submits: the caller's request
with the NIC list and the disk list as the pre-processing left them. -/
def submittedRequest (request : CloneVmRequest) (nics : List NicSpecification)
    (disks : List Disk) : CloneVmRequest :=
  { request with
    VmCustomization := { request.VmCustomization with NicSpecification := nics }
    Config := { request.Config with Disks := disks } }

/-- The request `GetVM` issues. -/
def getRequest (vmUri : String) : Request :=
  ⟨Method.GET, vmUri, [], Body.empty⟩

/-- The request `CloneVm` submits for a request value. -/
def cloneHttpRequest (env : Env) (templateUri : String) (submitted : CloneVmRequest) : Request :=
  ⟨Method.POST, env.pathJoin [templateUri, "action", "clone"], [], Body.cloneVm submitted⟩

/-- The request `MigrateVM` is documented to issue. -/
def migrateRequest (env : Env) (vmUri hostUrn : String) (isBindingHost : Bool) : Request :=
  ⟨Method.POST, env.pathJoin [vmUri, "/action/migrate"], [],
    Body.stringMap [("location", hostUrn),
      ("isBindingHost", if isBindingHost then "true" else "false")]⟩

/-! ## Reference definitions for the netmask -/

/-- The 32-bit value whose top `n` bits are one and whose other bits are zero. -/
def leadingOnes (n : Nat) : Nat :=
  2 ^ 32 - 2 ^ (32 - n)

/-- Dotted-decimal rendering of a 32-bit value: its four bytes, most
significant first, each in decimal without leading zeros. -/
def dottedDecimal (v : Nat) : String :=
  Nat.repr (v / 2 ^ 24 % 256) ++ "." ++ Nat.repr (v / 2 ^ 16 % 256) ++ "."
    ++ Nat.repr (v / 2 ^ 8 % 256) ++ "." ++ Nat.repr (v % 256)

/-! ## Facts about `parseMask` -/

theorem writeRun_eq (c : Char) (k : Nat) (buff : List Char) :
    writeRun c k buff = buff ++ List.replicate k c := by
  induction k generalizing buff with
  | zero => simp [writeRun]
  | succ k ih =>
    rw [writeRun, ih, List.append_assoc]
    rfl

theorem goSlice_replicate (c : Char) (len lo hi : Nat) (h1 : lo ≤ hi) (h2 : hi ≤ len) :
    goSlice (List.replicate len c) lo hi = some (List.replicate (hi - lo) c) := by
  simp [goSlice, h1, h2, List.take_replicate, List.drop_replicate, Nat.min_eq_left h2]

theorem parseMask_cases (k : Nat) (hk : k ≤ 32) :
    parseMask (k : Int) = some (dottedDecimal (leadingOnes k), none) := by
  interval_cases k <;> decide

/-- **C1.** For every integer `n` with `0 ≤ n ≤ 32`, `parseMask n` returns a nil
error and the dotted-decimal rendering of the 32-bit value with `n` leading
one bits, `2^32 - 2^(32-n)`; in particular `0` gives `0.0.0.0`, `8` gives
`255.0.0.0`, `24` gives `255.255.255.0` and `32` gives `255.255.255.255`. -/
theorem parseMask_in_range (n : Int) (h0 : 0 ≤ n) (h32 : n ≤ 32) :
    parseMask n = some (dottedDecimal (leadingOnes n.toNat), none)
      ∧ parseMask 0 = some ("0.0.0.0", none)
      ∧ parseMask 8 = some ("255.0.0.0", none)
      ∧ parseMask 24 = some ("255.255.255.0", none)
      ∧ parseMask 32 = some ("255.255.255.255", none) := by
  refine ⟨?_, by decide, by decide, by decide, by decide⟩
  obtain ⟨k, rfl⟩ := Int.eq_ofNat_of_zero_le h0
  have hk : k ≤ 32 := by omega
  simpa using parseMask_cases k hk

theorem parseMask_in_range_witness :
    (0 : Int) ≤ 19 ∧ (19 : Int) ≤ 32
      ∧ parseMask 19 = some ("255.255.224.0", none)
      ∧ dottedDecimal (leadingOnes 19) = "255.255.224.0" :=
  ⟨by decide, by decide,
    (parseMask_in_range 19 (by decide) (by decide)).1.trans (by decide), by decide⟩

theorem parseMask_negative (n : Int) (h : n < 0) :
    parseMask n = some ("0.0.0.0", none) := by
  obtain ⟨j, hj⟩ : ∃ j : Nat, (32 - n).toNat = 32 + j := ⟨(32 - n).toNat - 32, by omega⟩
  have h1 : n.toNat = 0 := by omega
  unfold parseMask
  simp only [h1, hj, writeRun_eq, List.nil_append, List.replicate_zero]
  rw [goSlice_replicate _ _ 0 8 (by omega) (by omega),
    goSlice_replicate _ _ 8 16 (by omega) (by omega),
    goSlice_replicate _ _ 16 24 (by omega) (by omega),
    goSlice_replicate _ _ 24 32 (by omega) (by omega)]
  decide

theorem parseMask_above (n : Int) (h : 32 < n) :
    parseMask n = some ("255.255.255.255", none) := by
  obtain ⟨j, hj⟩ : ∃ j : Nat, n.toNat = 32 + j := ⟨n.toNat - 32, by omega⟩
  have h1 : (32 - n).toNat = 0 := by omega
  unfold parseMask
  simp only [h1, hj, writeRun_eq, List.nil_append, List.replicate_zero, List.append_nil]
  rw [goSlice_replicate _ _ 0 8 (by omega) (by omega),
    goSlice_replicate _ _ 8 16 (by omega) (by omega),
    goSlice_replicate _ _ 16 24 (by omega) (by omega),
    goSlice_replicate _ _ 24 32 (by omega) (by omega)]
  decide

/-- The prefix length is never rejected: `parseMask` neither panics nor
returns an error, whatever its argument. -/
theorem parseMask_total (n : Int) : ∃ mask, parseMask n = some (mask, none) := by
  rcases lt_or_le n 0 with h | h
  · exact ⟨_, parseMask_negative n h⟩
  · rcases le_or_lt n 32 with h2 | h2
    · obtain ⟨k, rfl⟩ := Int.eq_ofNat_of_zero_le h
      exact ⟨_, parseMask_cases k (by omega)⟩
    · exact ⟨_, parseMask_above n h2⟩

/-- **C6, as the code behaves.** For every integer outside `0..32`,
`parseMask` returns a mask and a nil error: `0.0.0.0` below zero and
`255.255.255.255` above 32. -/
theorem parseMask_out_of_range (n : Int) (h : n < 0 ∨ 32 < n) :
    parseMask n = some (if n < 0 then "0.0.0.0" else "255.255.255.255", none) := by
  rcases h with h | h
  · rw [if_pos h]
    exact parseMask_negative n h
  · rw [if_neg (by omega)]
    exact parseMask_above n h

theorem parseMask_out_of_range_witness :
    ((40 : Int) < 0 ∨ (32 : Int) < 40)
      ∧ parseMask 40 = some (if (40 : Int) < 0 then "0.0.0.0" else "255.255.255.255", none) :=
  ⟨Or.inr (by decide), parseMask_out_of_range 40 (Or.inr (by decide))⟩

/-- **C6, counterexample.** Prefix lengths 33 and -1 are not rejected: both
calls return a mask string together with a nil error. -/
theorem parseMask_unguarded :
    parseMask 33 = some ("255.255.255.255", none)
      ∧ parseMask (-1) = some ("0.0.0.0", none) := by
  decide

/-! ## Facts about the library routines -/

theorem containsAt_dot (l : List Char) : containsAt l ['.'] = true ↔ '.' ∈ l := by
  induction l with
  | nil => simp [containsAt]
  | cons c cs ih =>
    simp only [containsAt, Bool.or_eq_true, ih, List.mem_cons]
    constructor
    · rintro (h | h)
      · left
        simpa [List.isPrefixOf] using h
      · exact Or.inr h
    · rintro (h | h)
      · left
        simpa [List.isPrefixOf] using h
      · exact Or.inr h

theorem contains_dot_iff (s : String) : strings.Contains s "." = true ↔ '.' ∈ s.data := by
  unfold strings.Contains
  exact containsAt_dot s.data

theorem parseUintLoop_dot (base : Nat) (l : List Char) (n : Nat) (h : '.' ∈ l) :
    parseUintLoop base l n = none ∨ ∃ v, parseUintLoop base l n = some (v, true) := by
  induction l generalizing n with
  | nil => simp at h
  | cons c cs ih =>
    rw [parseUintLoop]
    rcases List.mem_cons.mp h with h | h
    · subst h
      left
      rfl
    · cases hd : digitOf c with
      | none => left; rfl
      | some d =>
        simp only
        split_ifs with h1 h2
        · left; rfl
        · right; exact ⟨_, rfl⟩
        · exact ih _ h

theorem ParseUint_dot (base : Nat) (s : String) (h : '.' ∈ s.data) :
    ∃ e, (strconv.ParseUint s base).2 = some (Error.numError "ParseUint" s e) := by
  unfold strconv.ParseUint
  cases hs : s.data with
  | nil => rw [hs] at h; simp at h
  | cons c cs =>
    rw [hs] at h
    simp only
    rcases parseUintLoop_dot base (c :: cs) 0 h with h1 | ⟨v, h1⟩
    · rw [h1]
      exact ⟨_, rfl⟩
    · rw [h1]
      exact ⟨_, rfl⟩

/-- `strconv.Atoi` rejects every string that contains a `.`. -/
theorem Atoi_dot (s : String) (h : '.' ∈ s.data) : ∃ e, strconv.Atoi s = Except.error e := by
  unfold strconv.Atoi
  cases hs : s.data with
  | nil => rw [hs] at h; simp at h
  | cons c cs =>
    rw [hs] at h
    simp only
    have hmem : '.' ∈ (if c = '-' ∨ c = '+' then cs else c :: cs) := by
      split_ifs with hc
      · rcases List.mem_cons.mp h with h | h
        · rcases hc with hc | hc <;> rw [hc] at h <;> exact absurd h (by decide)
        · exact h
      · exact h
    obtain ⟨e, he⟩ := ParseUint_dot 10 (String.mk (if c = '-' ∨ c = '+' then cs else c :: cs)) hmem
    generalize strconv.ParseUint (String.mk (if c = '-' ∨ c = '+' then cs else c :: cs)) 10 = r at he
    obtain ⟨v, oe⟩ := r
    simp only at he
    subst he
    cases e <;> exact ⟨_, rfl⟩

theorem sprintfDotted_dotted (a b c d : Nat) :
    strings.Contains (sprintfDotted a b c d) "." = true := by
  rw [contains_dot_iff]
  simp [sprintfDotted, String.data_append]

/-- Whatever `parseMask` returns contains a `.`. -/
theorem parseMask_dotted (n : Int) (mask : String) (e : Option Error)
    (h : parseMask n = some (mask, e)) : strings.Contains mask "." = true := by
  unfold parseMask at h
  simp only at h
  split at h
  · simp only [Option.some.injEq, Prod.mk.injEq] at h
    rw [← h.1]
    exact sprintfDotted_dotted _ _ _ _
  · exact absurd h (by simp)

/-! ## Facts about the NIC loop -/

theorem normalizeStep_dotted (n : Nat) (nics : List NicSpecification) (nic : NicSpecification)
    (h : nics[n]? = some nic) (hd : strings.Contains nic.Netmask "." = true) :
    normalizeStep n nics = Flow.next nics := by
  simp [normalizeStep, h, hd]

theorem normalizeStep_first_dotted (n : Nat) (nics : List NicSpecification)
    (nic first : NicSpecification) (h : nics[n]? = some nic)
    (hd : strings.Contains nic.Netmask "." = false) (h0 : nics[0]? = some first)
    (hf : strings.Contains first.Netmask "." = true) :
    ∃ cause, normalizeStep n nics = Flow.fail (Error.cannotParseNetmask cause) := by
  obtain ⟨e, he⟩ := Atoi_dot first.Netmask ((contains_dot_iff _).mp hf)
  exact ⟨e, by simp [normalizeStep, h, hd, h0, he]⟩

theorem normalizeStep_dotless (n : Nat) (nics : List NicSpecification)
    (nic first : NicSpecification) (h : nics[n]? = some nic)
    (hd : strings.Contains nic.Netmask "." = false) (h0 : nics[0]? = some first) :
    (∃ cause, strconv.Atoi first.Netmask = Except.error cause
        ∧ normalizeStep n nics = Flow.fail (Error.cannotParseNetmask cause))
      ∨ ∃ b mask, strconv.Atoi first.Netmask = Except.ok b
        ∧ parseMask b = some (mask, none)
        ∧ normalizeStep n nics = Flow.next (nics.set n { nic with Netmask := mask }) := by
  cases he : strconv.Atoi first.Netmask with
  | error e => exact Or.inl ⟨e, rfl, by simp [normalizeStep, h, hd, h0, he]⟩
  | ok b =>
    obtain ⟨mask, hm⟩ := parseMask_total b
    exact Or.inr ⟨b, mask, rfl, hm, by simp [normalizeStep, h, hd, h0, he, hm]⟩

/-- One pass of the loop body either leaves the list alone or overwrites the
netmask of the entry at `n`, which had no `.`, with a mask that has one. -/
theorem normalizeStep_next (n : Nat) (nics nics1 : List NicSpecification)
    (h : normalizeStep n nics = Flow.next nics1) :
    nics1 = nics ∨ ∃ nic mask, nics[n]? = some nic
      ∧ strings.Contains nic.Netmask "." = false
      ∧ strings.Contains mask "." = true
      ∧ nics1 = nics.set n { nic with Netmask := mask } := by
  cases hn : nics[n]? with
  | none => simp [normalizeStep, hn] at h
  | some nic =>
    cases hd : strings.Contains nic.Netmask "." with
    | true =>
      rw [normalizeStep_dotted n nics nic hn hd] at h
      exact Or.inl (Flow.next.inj h).symm
    | false =>
      cases h0 : nics[0]? with
      | none => simp [normalizeStep, hn, hd, h0] at h
      | some first =>
        rcases normalizeStep_dotless n nics nic first hn hd h0 with
          ⟨cause, _, hs⟩ | ⟨b, mask, _, hm, hs⟩
        · rw [hs] at h
          exact absurd h (by simp)
        · rw [hs] at h
          exact Or.inr ⟨nic, mask, rfl, hd, parseMask_dotted b mask none hm,
            (Flow.next.inj h).symm⟩

/-- What a pass of the loop body preserves: the length of the list, every
entry whose netmask has a `.`, and the other fields of every entry. -/
theorem normalizeStep_frame (n : Nat) (nics nics1 : List NicSpecification)
    (h : normalizeStep n nics = Flow.next nics1) :
    nics1.length = nics.length
      ∧ (∀ (i : Nat) (nic : NicSpecification), nics[i]? = some nic →
          strings.Contains nic.Netmask "." = true → nics1[i]? = some nic)
      ∧ (∀ (i : Nat) (nic : NicSpecification), nics[i]? = some nic →
          ∃ nic1, nics1[i]? = some nic1 ∧ nic1.other = nic.other)
      ∧ (∀ (i : Nat) (nic : NicSpecification), i ≠ n → nics[i]? = some nic →
          nics1[i]? = some nic) := by
  rcases normalizeStep_next n nics nics1 h with rfl | ⟨nicn, mask, hn, hd, _, rfl⟩
  · exact ⟨rfl, fun _ _ h _ => h, fun _ nic h => ⟨nic, h, rfl⟩, fun _ _ _ h => h⟩
  · have hne : ∀ (i : Nat) (nic : NicSpecification), nics[i]? = some nic →
        strings.Contains nic.Netmask "." = true → n ≠ i := by
      intro i nic hi hdi hni
      subst hni
      rw [hn] at hi
      cases hi
      rw [hd] at hdi
      exact absurd hdi (by simp)
    refine ⟨by simp, ?_, ?_, ?_⟩
    · intro i nic hi hdi
      rw [List.getElem?_set_ne (hne i nic hi hdi)]
      exact hi
    · intro i nic hi
      by_cases hni : n = i
      · subst hni
        rw [hn] at hi
        cases hi
        have hlt : n < nics.length := by
          rcases Nat.lt_or_ge n nics.length with hl | hl
          · exact hl
          · rw [List.getElem?_eq_none hl] at hn
            exact absurd hn (by simp)
        exact ⟨{ nicn with Netmask := mask }, by rw [List.getElem?_set_self hlt], rfl⟩
      · exact ⟨nic, by rw [List.getElem?_set_ne hni]; exact hi, rfl⟩
    · intro i nic hin hi
      rw [List.getElem?_set_ne (Ne.symm hin)]
      exact hi

theorem normalizeLoop_frame (k n : Nat) (nics nics1 : List NicSpecification)
    (h : normalizeLoop k n nics = Flow.next nics1) :
    nics1.length = nics.length
      ∧ (∀ (i : Nat) (nic : NicSpecification), nics[i]? = some nic →
          strings.Contains nic.Netmask "." = true → nics1[i]? = some nic)
      ∧ (∀ (i : Nat) (nic : NicSpecification), nics[i]? = some nic →
          ∃ nic1, nics1[i]? = some nic1 ∧ nic1.other = nic.other) := by
  induction k generalizing n nics with
  | zero =>
    rw [normalizeLoop] at h
    cases h
    exact ⟨rfl, fun _ _ h _ => h, fun _ nic h => ⟨nic, h, rfl⟩⟩
  | succ k ih =>
    rw [normalizeLoop] at h
    cases hs : normalizeStep n nics with
    | fail err => rw [hs] at h; exact absurd h (by simp)
    | panic => rw [hs] at h; exact absurd h (by simp)
    | next mid =>
      rw [hs] at h
      obtain ⟨hl, hk, ho, _⟩ := normalizeStep_frame n nics mid hs
      obtain ⟨hl2, hk2, ho2⟩ := ih (n + 1) mid h
      refine ⟨hl2.trans hl, fun i nic hi hd => hk2 i nic (hk i nic hi hd) hd, ?_⟩
      intro i nic hi
      obtain ⟨nic1, h1, e1⟩ := ho i nic hi
      obtain ⟨nic2, h2, e2⟩ := ho2 i nic1 h1
      exact ⟨nic2, h2, e2.trans e1⟩

/-- From index `n` on, the loop fails as soon as an entry at an index of at
least one has no `.`: by then the first netmask, the one that is parsed, has
one. -/
theorem normalizeLoop_fails (k n : Nat) (nics : List NicSpecification)
    (hlen : n + k = nics.length) (i : Nat) (hi1 : 1 ≤ i) (hin : n ≤ i)
    (nic : NicSpecification) (hget : nics[i]? = some nic)
    (hno : strings.Contains nic.Netmask "." = false)
    (hinv : 1 ≤ n → ∃ first, nics[0]? = some first
      ∧ strings.Contains first.Netmask "." = true) :
    ∃ cause, normalizeLoop k n nics = Flow.fail (Error.cannotParseNetmask cause) := by
  have hilt : i < nics.length := by
    rcases Nat.lt_or_ge i nics.length with hl | hl
    · exact hl
    · rw [List.getElem?_eq_none hl] at hget
      exact absurd hget (by simp)
  induction k generalizing n nics with
  | zero => omega
  | succ k ih =>
    rw [normalizeLoop]
    have hnlt : n < nics.length := by omega
    obtain ⟨cur, hcur⟩ : ∃ cur, nics[n]? = some cur := ⟨nics[n], List.getElem?_eq_getElem hnlt⟩
    obtain ⟨first, hfirst⟩ : ∃ first, nics[0]? = some first :=
      ⟨nics[0], List.getElem?_eq_getElem (by omega)⟩
    cases hd : strings.Contains cur.Netmask "." with
    | true =>
      rw [normalizeStep_dotted n nics cur hcur hd]
      have hne : n ≠ i := by
        intro hni
        subst hni
        rw [hcur] at hget
        cases hget
        rw [hd] at hno
        exact absurd hno (by simp)
      refine ih (n + 1) nics (by omega) (by omega) hget ?_ hilt
      intro _
      rcases Nat.eq_zero_or_pos n with h0 | h0
      · subst h0
        exact ⟨cur, hcur, hd⟩
      · exact hinv h0
    | false =>
      rcases Nat.eq_zero_or_pos n with h0 | h0
      · subst h0
        rcases normalizeStep_dotless 0 nics cur first hcur hd hfirst with
          ⟨cause, _, hs⟩ | ⟨b, mask, _, hm, hs⟩
        · rw [hs]
          exact ⟨cause, rfl⟩
        · rw [hs]
          refine ih 1 _ (by simp; omega) (by omega) ?_ ?_ (by simpa using hilt)
          · rw [List.getElem?_set_ne (by omega)]
            exact hget
          · intro _
            exact ⟨_, by rw [List.getElem?_set_self (by omega)],
              parseMask_dotted b mask none hm⟩
      · obtain ⟨f, hf, hfd⟩ := hinv h0
        obtain ⟨cause, hs⟩ := normalizeStep_first_dotted n nics cur f hcur hd hf hfd
        rw [hs]
        exact ⟨cause, rfl⟩

/-- A netmask without a `.` at an index of at least one makes the whole loop
fail. -/
theorem normalizeNics_fails_later (nics : List NicSpecification) (i : Nat) (hi : 1 ≤ i)
    (nic : NicSpecification) (hget : nics[i]? = some nic)
    (hno : strings.Contains nic.Netmask "." = false) :
    ∃ cause, normalizeNics nics = Flow.fail (Error.cannotParseNetmask cause) :=
  normalizeLoop_fails nics.length 0 nics (by omega) i hi (by omega) nic hget hno
    (fun h => absurd h (by omega))

/-- A first netmask that has no `.` and does not parse makes the loop fail at
its first pass. -/
theorem normalizeNics_fails_first (nics : List NicSpecification) (nic : NicSpecification)
    (hget : nics[0]? = some nic) (hno : strings.Contains nic.Netmask "." = false)
    (cause : Error) (hbad : strconv.Atoi nic.Netmask = Except.error cause) :
    normalizeNics nics = Flow.fail (Error.cannotParseNetmask cause) := by
  unfold normalizeNics
  cases nics with
  | nil => simp at hget
  | cons x xs =>
    rw [List.length_cons, normalizeLoop]
    rcases normalizeStep_dotless 0 (x :: xs) nic nic hget hno hget with
      ⟨c, hc, hs⟩ | ⟨b, _, hb, _, _⟩
    · rw [hs]
      rw [hbad] at hc
      cases hc
      rfl
    · rw [hbad] at hb
      exact absurd hb (by simp)

/-! ## Facts about single requests -/

theorem issued_of_log (before after : Net) (xs : List Exchange)
    (h : after.log = before.log ++ xs) : issued before after = xs := by
  simp [issued, h]

theorem oneShot_refused {α : Type} (env : Env) (fin : Except Error Response → Ret α)
    (req : Request) (net : Net) (err : Error) (h : env.GetApiClient net = some err) :
    oneShot env fin req net = ((none, some err), clientUsed net) := by
  simp [oneShot, obtainClient, h, clientUsed]

theorem oneShot_sent {α : Type} (env : Env) (fin : Except Error Response → Ret α)
    (req : Request) (net : Net) (h : env.GetApiClient net = none) :
    oneShot env fin req net
      = (fin (env.roundTrip (clientUsed net) req),
          { clientUsed net with
            log := net.log ++ [⟨req, env.roundTrip (clientUsed net) req⟩] }) := by
  simp [oneShot, obtainClient, h, clientUsed, send]

theorem finish_noPartial {α : Type} (env : Env) (u : String → Except Error α)
    (reply : Except Error Response) : NoPartial (finish env u reply) := by
  unfold NoPartial finish
  cases reply with
  | error e => simp
  | ok resp =>
    cases hs : resp.IsSuccess with
    | false => simp [hs]
    | true => cases hu : u resp.Body <;> simp [hs, hu]

theorem finish_failure {α : Type} (env : Env) (u : String → Except Error α)
    (resp : Response) (h : resp.IsSuccess = false) :
    finish env u (Except.ok resp) = (none, some (env.FormatHttpError resp)) := by
  simp [finish, h]

theorem finishList_noPartial (env : Env) (reply : Except Error Response) :
    NoPartial (finishList env reply) := by
  unfold NoPartial finishList
  cases reply with
  | error e => simp
  | ok resp =>
    cases hs : resp.IsSuccess with
    | false => simp [hs]
    | true => cases hu : env.unmarshalListVm resp.Body <;> simp [hs, hu]

theorem finishList_failure (env : Env) (resp : Response) (h : resp.IsSuccess = false) :
    finishList env (Except.ok resp) = (none, some (env.FormatHttpError resp)) := by
  simp [finishList, h]

theorem oneShot_uniform {α : Type} (env : Env) (fin : Except Error Response → Ret α)
    (hnp : ∀ reply, NoPartial (fin reply))
    (hfail : ∀ resp, resp.IsSuccess = false → fin (Except.ok resp) = (none, some (env.FormatHttpError resp)))
    (req : Request) (net : Net) : Uniform env net (oneShot env fin req net) := by
  cases hc : env.GetApiClient net with
  | some err =>
    rw [oneShot_refused env fin req net err hc]
    refine ⟨?_, by simp [NoPartial]⟩
    intro ex hex
    rw [issued_of_log net (clientUsed net) [] (by simp [clientUsed])] at hex
    simp at hex
  | none =>
    rw [oneShot_sent env fin req net hc]
    refine ⟨?_, hnp _⟩
    intro ex hex resp hr hs
    rw [issued_of_log net _ [⟨req, env.roundTrip (clientUsed net) req⟩] rfl] at hex
    simp only [List.mem_singleton] at hex
    subst hex
    simp only at hr
    simp only [hr]
    exact hfail resp hs

theorem oneShot_count {α : Type} (env : Env) (fin : Except Error Response → Ret α)
    (req : Request) (net : Net) (h : env.GetApiClient net = none) :
    issued net (oneShot env fin req net).2 = [⟨req, env.roundTrip (clientUsed net) req⟩] := by
  rw [oneShot_sent env fin req net h]
  exact issued_of_log net _ _ rfl

theorem GetVM_eq (env : Env) (m : manager) (vmUri : String) (net : Net) :
    GetVM env m vmUri net = oneShot env (finish env env.unmarshalVm) (getRequest vmUri) net :=
  rfl

theorem ListVm_eq (env : Env) (m : manager) (isTemplate : Bool) (net : Net) :
    ListVm env m isTemplate net = oneShot env (finishList env) (listRequest m isTemplate) net :=
  rfl

theorem StartVm_eq (env : Env) (m : manager) (vmUri : String) (net : Net) :
    StartVm env m vmUri net = oneShot env (finish env env.unmarshalStartVm)
      ⟨Method.POST, env.pathJoin [vmUri, "/action/start"], [], Body.empty⟩ net := rfl

theorem DeleteVm_eq (env : Env) (m : manager) (vmUri : String) (net : Net) :
    DeleteVm env m vmUri net = oneShot env (finish env env.unmarshalDeleteVm)
      ⟨Method.DELETE, vmUri, [], Body.empty⟩ net := rfl

theorem UploadImage_eq (env : Env) (m : manager) (vmUri : String)
    (request : ImportTemplateRequest) (net : Net) :
    UploadImage env m vmUri request net = oneShot env (finish env env.unmarshalImportTemplate)
      ⟨Method.POST, env.pathJoin [vmUri, "action", "import"], [],
        Body.importTemplate request⟩ net := rfl

theorem RebootVM_eq (env : Env) (m : manager) (vmUri : String) (safe : Bool) (net : Net) :
    RebootVM env m vmUri safe net = oneShot env (finish env env.unmarshalRebootVm)
      ⟨Method.POST, env.pathJoin [vmUri, "/action/reboot"], [],
        Body.stringMap [("mode", if safe then "safe" else "force")]⟩ net := by
  cases safe <;> rfl

theorem MigrateVM_eq (env : Env) (m : manager) (vmUri hostUrn : String) (isBindingHost : Bool)
    (net : Net) :
    MigrateVM env m vmUri hostUrn isBindingHost net
      = oneShot env (finish env env.unmarshalMigrateVm)
          (migrateRequest env vmUri hostUrn isBindingHost) net := by
  cases isBindingHost <;> rfl

/-! ## Facts about `CloneVm` -/

theorem finish_cases {α : Type} (env : Env) (u : String → Except Error α)
    (reply : Except Error Response) :
    (∃ err, finish env u reply = (none, some err))
      ∨ ∃ item resp, reply = Except.ok resp ∧ resp.IsSuccess = true
        ∧ finish env u reply = (some item, none) := by
  unfold finish
  cases reply with
  | error e => exact Or.inl ⟨e, rfl⟩
  | ok resp =>
    cases hs : resp.IsSuccess with
    | false => exact Or.inl ⟨env.FormatHttpError resp, by simp [hs]⟩
    | true =>
      cases hu : u resp.Body with
      | error e => exact Or.inl ⟨e, by simp [hs, hu]⟩
      | ok item => exact Or.inr ⟨item, resp, rfl, hs, by simp [hs, hu]⟩

/-- The two ways `GetVM` runs: the client is refused and nothing is sent, or
the one GET is sent and its reply finished. -/
theorem GetVM_run (env : Env) (m : manager) (vmUri : String) (net : Net) :
    (∃ err, env.GetApiClient net = some err
        ∧ GetVM env m vmUri net = ((none, some err), clientUsed net))
      ∨ (env.GetApiClient net = none
        ∧ GetVM env m vmUri net
          = (finish env env.unmarshalVm (env.roundTrip (clientUsed net) (getRequest vmUri)),
              { clientUsed net with
                log := net.log
                  ++ [⟨getRequest vmUri, env.roundTrip (clientUsed net) (getRequest vmUri)⟩] })) := by
  rw [GetVM_eq]
  cases hc : env.GetApiClient net with
  | some err => exact Or.inl ⟨err, rfl, oneShot_refused env _ _ net err hc⟩
  | none => exact Or.inr ⟨rfl, oneShot_sent env _ _ net hc⟩

theorem CloneVm_of_fail (env : Env) (m : manager) (uri : String) (request : CloneVmRequest)
    (net : Net) (err : Error)
    (h : normalizeNics request.VmCustomization.NicSpecification = Flow.fail err) :
    CloneVm env m uri request net = (some (none, some err), net) := by
  simp [CloneVm, h]

theorem CloneVm_of_panic (env : Env) (m : manager) (uri : String) (request : CloneVmRequest)
    (net : Net) (h : normalizeNics request.VmCustomization.NicSpecification = Flow.panic) :
    CloneVm env m uri request net = (none, net) := by
  simp [CloneVm, h]

/-- The four ways `CloneVm` runs once the NIC loop has completed: the template
fetch fails; the first-disk access panics; the client is refused before the
POST; the POST is sent and its reply finished. -/
theorem CloneVm_run (env : Env) (m : manager) (uri : String) (request : CloneVmRequest)
    (net : Net) (nics : List NicSpecification)
    (hpre : normalizeNics request.VmCustomization.NicSpecification = Flow.next nics) :
    (∃ err, (GetVM env m uri net).1 = (none, some err)
        ∧ CloneVm env m uri request net = (some (none, some err), (GetVM env m uri net).2))
      ∨ (∃ vm, (GetVM env m uri net).1 = (some vm, none)
        ∧ raiseFirstDisk request.Config.Disks vm.VmConfig.Disks = none
        ∧ CloneVm env m uri request net = (none, (GetVM env m uri net).2))
      ∨ (∃ vm disks err, (GetVM env m uri net).1 = (some vm, none)
        ∧ raiseFirstDisk request.Config.Disks vm.VmConfig.Disks = some disks
        ∧ env.GetApiClient (GetVM env m uri net).2 = some err
        ∧ CloneVm env m uri request net
          = (some (none, some err), clientUsed (GetVM env m uri net).2))
      ∨ (∃ vm disks, (GetVM env m uri net).1 = (some vm, none)
        ∧ raiseFirstDisk request.Config.Disks vm.VmConfig.Disks = some disks
        ∧ env.GetApiClient (GetVM env m uri net).2 = none
        ∧ CloneVm env m uri request net
          = (some (finish env env.unmarshalCloneVm
                (env.roundTrip (clientUsed (GetVM env m uri net).2)
                  (cloneHttpRequest env uri (submittedRequest request nics disks)))),
              { clientUsed (GetVM env m uri net).2 with
                log := (GetVM env m uri net).2.log
                  ++ [⟨cloneHttpRequest env uri (submittedRequest request nics disks),
                      env.roundTrip (clientUsed (GetVM env m uri net).2)
                        (cloneHttpRequest env uri (submittedRequest request nics disks))⟩] })) := by
  have hg : (∃ err, (GetVM env m uri net).1 = (none, some err))
      ∨ ∃ vm, (GetVM env m uri net).1 = (some vm, none) := by
    rcases GetVM_run env m uri net with ⟨err, _, h⟩ | ⟨_, h⟩
    · exact Or.inl ⟨err, by rw [h]⟩
    · rw [h]
      rcases finish_cases env env.unmarshalVm
          (env.roundTrip (clientUsed net) (getRequest uri)) with ⟨err, h2⟩ | ⟨vm, _, _, _, h2⟩
      · exact Or.inl ⟨err, h2⟩
      · exact Or.inr ⟨vm, h2⟩
  unfold CloneVm
  rw [hpre]
  simp only
  generalize GetVM env m uri net = g at hg ⊢
  obtain ⟨r, net1⟩ := g
  rcases hg with ⟨err, hr⟩ | ⟨vm, hr⟩
  · simp only at hr
    subst hr
    exact Or.inl ⟨err, rfl, rfl⟩
  · simp only at hr
    subst hr
    right
    cases hd : raiseFirstDisk request.Config.Disks vm.VmConfig.Disks with
    | none => exact Or.inl ⟨vm, rfl, by simp [hd], by simp [hd]⟩
    | some disks =>
      right
      cases hc : env.GetApiClient net1 with
      | some err =>
        exact Or.inl ⟨vm, disks, err, rfl, by simp [hd], by simp [hc],
          by simp [hd, obtainClient, hc, clientUsed]⟩
      | none =>
        exact Or.inr ⟨vm, disks, rfl, by simp [hd], by simp [hc],
          by simp [hd, obtainClient, hc, clientUsed, send, cloneHttpRequest, submittedRequest]⟩

theorem issued_self (net : Net) : issued net net = [] := by
  simp [issued]

/-- What `GetVM` adds to the log: nothing, or its one GET. -/
theorem GetVM_log (env : Env) (m : manager) (vmUri : String) (net : Net) :
    (env.GetApiClient net ≠ none ∧ (GetVM env m vmUri net).2.log = net.log
        ∧ ∃ err, (GetVM env m vmUri net).1 = (none, some err))
      ∨ (env.GetApiClient net = none
        ∧ (GetVM env m vmUri net).2.log = net.log
          ++ [⟨getRequest vmUri, env.roundTrip (clientUsed net) (getRequest vmUri)⟩]
        ∧ (GetVM env m vmUri net).1
          = finish env env.unmarshalVm (env.roundTrip (clientUsed net) (getRequest vmUri))) := by
  rcases GetVM_run env m vmUri net with ⟨err, hc, h⟩ | ⟨hc, h⟩
  · exact Or.inl ⟨by simp [hc], by rw [h]; rfl, err, by rw [h]⟩
  · exact Or.inr ⟨hc, by rw [h], by rw [h]⟩

theorem GetVM_extends (env : Env) (m : manager) (vmUri : String) (net : Net) :
    ∃ pre, (GetVM env m vmUri net).2.log = net.log ++ pre := by
  rcases GetVM_log env m vmUri net with ⟨_, hl, _⟩ | ⟨_, hl, _⟩
  · exact ⟨[], by simp [hl]⟩
  · exact ⟨_, hl⟩

theorem issued_extend (net mid after : Net) (xs : List Exchange)
    (hmid : ∃ pre, mid.log = net.log ++ pre) (h : after.log = mid.log ++ xs) :
    issued net after = issued net mid ++ xs := by
  obtain ⟨pre, hpre⟩ := hmid
  simp [issued, h, hpre]

/-- What `CloneVm` adds to the log once the NIC loop has completed: what the
template fetch adds, then nothing or the one POST of the request as it stands
after pre-processing. -/
theorem CloneVm_log (env : Env) (m : manager) (uri : String) (request : CloneVmRequest)
    (net : Net) (nics : List NicSpecification)
    (hpre : normalizeNics request.VmCustomization.NicSpecification = Flow.next nics) :
    (CloneVm env m uri request net).2.log = (GetVM env m uri net).2.log
      ∨ ∃ vm disks, (GetVM env m uri net).1 = (some vm, none)
        ∧ raiseFirstDisk request.Config.Disks vm.VmConfig.Disks = some disks
        ∧ env.GetApiClient (GetVM env m uri net).2 = none
        ∧ (CloneVm env m uri request net).1 = some (finish env env.unmarshalCloneVm
            (env.roundTrip (clientUsed (GetVM env m uri net).2)
              (cloneHttpRequest env uri (submittedRequest request nics disks))))
        ∧ (CloneVm env m uri request net).2.log = (GetVM env m uri net).2.log
          ++ [⟨cloneHttpRequest env uri (submittedRequest request nics disks),
              env.roundTrip (clientUsed (GetVM env m uri net).2)
                (cloneHttpRequest env uri (submittedRequest request nics disks))⟩] := by
  rcases CloneVm_run env m uri request net nics hpre with
    ⟨_, _, h⟩ | ⟨_, _, _, h⟩ | ⟨_, _, _, _, _, _, h⟩ | ⟨vm, disks, hg, hd, hc, h⟩
  · exact Or.inl (by rw [h])
  · exact Or.inl (by rw [h])
  · exact Or.inl (by rw [h]; rfl)
  · exact Or.inr ⟨vm, disks, hg, hd, hc, by rw [h], by rw [h]⟩

theorem CloneVm_uniform (env : Env) (m : manager) (uri : String) (request : CloneVmRequest)
    (net : Net) : UniformOrPanic env net (CloneVm env m uri request net) := by
  cases hn : normalizeNics request.VmCustomization.NicSpecification with
  | panic =>
    rw [CloneVm_of_panic env m uri request net hn]
    exact ⟨by simp [issued_self], by simp⟩
  | fail err =>
    rw [CloneVm_of_fail env m uri request net err hn]
    refine ⟨by simp [issued_self], ?_⟩
    intro r hr
    simp only [Option.some.injEq] at hr
    subst hr
    simp [NoPartial]
  | next nics =>
    have hG := (oneShot_uniform env (finish env env.unmarshalVm) (finish_noPartial env _)
      (finish_failure env _) (getRequest uri) net).1
    rw [← GetVM_eq env m uri net] at hG
    rcases CloneVm_run env m uri request net nics hn with
      ⟨err, hg, h⟩ | ⟨vm, hg, _, h⟩ | ⟨vm, disks, err, hg, _, _, h⟩ | ⟨vm, disks, hg, _, _, h⟩
    · rw [h]
      refine ⟨?_, ?_⟩
      · intro ex hex resp hr hs
        have := hG ex hex resp hr hs
        rw [hg] at this
        simp only [Prod.mk.injEq, true_and] at this
        simp [this]
      · intro r hr
        simp only [Option.some.injEq] at hr
        subst hr
        simp [NoPartial]
    · rw [h]
      refine ⟨?_, by simp⟩
      intro ex hex resp hr hs
      have := hG ex hex resp hr hs
      rw [hg] at this
      simp at this
    · rw [h]
      refine ⟨?_, ?_⟩
      · intro ex hex resp hr hs
        have hex2 : ex ∈ issued net (GetVM env m uri net).2 := by
          simpa [issued, clientUsed] using hex
        have := hG ex hex2 resp hr hs
        rw [hg] at this
        simp at this
      · intro r hr
        simp only [Option.some.injEq] at hr
        subst hr
        simp [NoPartial]
    · rw [h]
      refine ⟨?_, ?_⟩
      · intro ex hex resp hr hs
        rw [issued_extend net (GetVM env m uri net).2 _ _ (GetVM_extends env m uri net) rfl]
          at hex
        simp only [List.mem_append, List.mem_singleton] at hex
        rcases hex with hex | hex
        · have := hG ex hex resp hr hs
          rw [hg] at this
          simp at this
        · subst hex
          simp only at hr
          simp only [hr]
          rw [finish_failure env _ resp hs]
      · intro r hr
        simp only [Option.some.injEq] at hr
        subst hr
        exact finish_noPartial env _ _

theorem GetHostNameOf_net (env : Env) (m : manager) (vmUri : String) (net : Net) :
    (GetHostNameOf env m vmUri net).2 = (GetVM env m vmUri net).2 := by
  unfold GetHostNameOf
  generalize GetVM env m vmUri net = g
  obtain ⟨⟨v, e⟩, net1⟩ := g
  cases v <;> cases e <;> rfl

theorem raiseFirstDisk_cons (r0 : Disk) (rest templateDisks : List Disk) :
    raiseFirstDisk (r0 :: rest) templateDisks
      = some (match templateDisks with
        | [] => r0 :: rest
        | t0 :: _ => { r0 with QuantityGB := max r0.QuantityGB t0.QuantityGB } :: rest) := by
  cases templateDisks with
  | nil => rfl
  | cons t0 ts =>
    simp only [raiseFirstDisk]
    split_ifs with h
    · rw [max_eq_right (le_of_lt h)]
    · rw [max_eq_left (not_lt.mp h)]

/-! ## The clone pre-processing -/

theorem Atoi_small (p : Nat) (hp : p ≤ 32) :
    strings.Contains (Nat.repr p) "." = false
      ∧ strconv.Atoi (Nat.repr p) = Except.ok (p : Int) := by
  interval_cases p <;> decide

/-- A request with a single NIC is normalised as intended: a netmask that is
the decimal rendering of a length from 0 to 32 is replaced by the mask of that
length. -/
theorem normalizeNics_single (nic : NicSpecification) (p : Nat) (hp : p ≤ 32)
    (h : nic.Netmask = Nat.repr p) :
    normalizeNics [nic]
      = Flow.next [{ nic with Netmask := dottedDecimal (leadingOnes p) }] := by
  obtain ⟨h1, h2⟩ := Atoi_small p hp
  have h3 := parseMask_cases p hp
  simp [normalizeNics, normalizeLoop, normalizeStep, h, h1, h2, h3]

/-- **C2, at the failing input.** With two NICs that both carry the prefix
length `24`, `CloneVm` does not submit the request with both netmasks set to
`parseMask 24`: at the second NIC it parses the netmask of the first, by then
`255.255.255.0`, and returns a "can not parse netmask" error, on every
platform and without touching the network. -/
theorem CloneVm_second_nic_fails (env : Env) (m : manager) (uri : String)
    (net : Net) :
    CloneVm env m uri (cloneRequest ["24", "24"] [50]) net
        = (some (none, some (Error.cannotParseNetmask
            (Error.numError "Atoi" "255.255.255.0" NumErr.invalidSyntax))), net)
      ∧ parseMask 24 = some ("255.255.255.0", none) :=
  ⟨CloneVm_of_fail env m uri _ net _ (by decide), by decide⟩

/-- **C3.** When the NIC loop of `CloneVm` completes without error, leaving the
list `nics`: every NIC whose netmask already had a `.` is the same entry in
`nics`, the list keeps its length and every entry keeps its other fields, and
`nics` is the NIC list of every clone request the call submits. -/
theorem CloneVm_keeps_dotted (env : Env) (m : manager) (uri : String)
    (request : CloneVmRequest) (net : Net) (nics : List NicSpecification)
    (hpre : normalizeNics request.VmCustomization.NicSpecification = Flow.next nics) :
    nics.length = request.VmCustomization.NicSpecification.length
      ∧ (∀ (i : Nat) (nic : NicSpecification),
          request.VmCustomization.NicSpecification[i]? = some nic →
          strings.Contains nic.Netmask "." = true → nics[i]? = some nic)
      ∧ (∀ (i : Nat) (nic : NicSpecification),
          request.VmCustomization.NicSpecification[i]? = some nic →
          ∃ nic1, nics[i]? = some nic1 ∧ nic1.other = nic.other)
      ∧ (∀ ex ∈ issued net (CloneVm env m uri request net).2, ∀ submitted,
          ex.request.body = Body.cloneVm submitted →
          submitted.VmCustomization.NicSpecification = nics) := by
  obtain ⟨hl, hk, ho⟩ := normalizeLoop_frame _ 0 _ nics hpre
  refine ⟨hl, hk, ho, ?_⟩
  intro ex hex submitted hb
  have hget : ∀ ex ∈ issued net (GetVM env m uri net).2, ex.request.body = Body.empty := by
    intro ex hex
    rcases GetVM_log env m uri net with ⟨_, h, _⟩ | ⟨_, h, _⟩
    · rw [issued_of_log net _ [] (by simp [h])] at hex
      simp at hex
    · rw [issued_of_log net _ _ h] at hex
      simp only [List.mem_singleton] at hex
      rw [hex]
      rfl
  rcases CloneVm_log env m uri request net nics hpre with h | ⟨vm, disks, _, _, _, _, h⟩
  · have hex2 : ex ∈ issued net (GetVM env m uri net).2 := by
      simpa [issued, h] using hex
    rw [hget ex hex2] at hb
    exact absurd hb (by simp)
  · rw [issued_extend net (GetVM env m uri net).2 _ _ (GetVM_extends env m uri net) h] at hex
    simp only [List.mem_append, List.mem_singleton] at hex
    rcases hex with hex | hex
    · rw [hget ex hex] at hb
      exact absurd hb (by simp)
    · subst hex
      simp only [cloneHttpRequest, Body.cloneVm.injEq] at hb
      rw [← hb]
      rfl

theorem CloneVm_keeps_dotted_witness :
    normalizeNics (cloneRequest ["24", "255.255.0.0"] [50]).VmCustomization.NicSpecification
        = Flow.next [⟨"255.255.255.0", "nic"⟩, ⟨"255.255.0.0", "nic"⟩]
      ∧ (issued freshNet (CloneVm okEnv ⟨"site"⟩ "tpl"
          (cloneRequest ["24", "255.255.0.0"] [50]) freshNet).2).map
            (fun ex => ex.request.method) = [Method.GET, Method.POST]
      ∧ ∀ ex ∈ issued freshNet (CloneVm okEnv ⟨"site"⟩ "tpl"
          (cloneRequest ["24", "255.255.0.0"] [50]) freshNet).2, ∀ submitted,
          ex.request.body = Body.cloneVm submitted →
          submitted.VmCustomization.NicSpecification
            = [⟨"255.255.255.0", "nic"⟩, ⟨"255.255.0.0", "nic"⟩] :=
  ⟨by decide, by decide,
    (CloneVm_keeps_dotted okEnv ⟨"site"⟩ "tpl" (cloneRequest ["24", "255.255.0.0"] [50])
      freshNet _ (by decide)).2.2.2⟩

/-- **C4.** For a clone request with at least one disk whose NIC loop
completes, whose template fetch returns a template and for which the client is
obtained again: the call adds one POST after the fetch, and in the request it
carries the first disk has the larger of the requested and the template's
first size when the template has a disk, the requested size when it has
none; the disk's other fields and every other disk entry are unchanged. -/
theorem CloneVm_first_disk (env : Env) (m : manager) (uri : String) (request : CloneVmRequest)
    (net : Net) (nics : List NicSpecification) (tmpl : Vm) (r0 : Disk) (rest : List Disk)
    (hpre : normalizeNics request.VmCustomization.NicSpecification = Flow.next nics)
    (hget : (GetVM env m uri net).1 = (some tmpl, none))
    (hclient : env.GetApiClient (GetVM env m uri net).2 = none)
    (hdisk : request.Config.Disks = r0 :: rest) :
    ∃ submitted reply,
      (CloneVm env m uri request net).2.log
          = (GetVM env m uri net).2.log ++ [⟨cloneHttpRequest env uri submitted, reply⟩]
        ∧ (tmpl.VmConfig.Disks = [] → submitted.Config.Disks = r0 :: rest)
        ∧ (∀ t0 ts, tmpl.VmConfig.Disks = t0 :: ts →
            submitted.Config.Disks
              = { r0 with QuantityGB := max r0.QuantityGB t0.QuantityGB } :: rest) := by
  rcases CloneVm_log env m uri request net nics hpre with h | ⟨vm, disks, hg, hd, _, _, h⟩
  · exfalso
    rcases CloneVm_run env m uri request net nics hpre with
      ⟨err, hg, _⟩ | ⟨vm, hg, hd, _⟩ | ⟨vm, disks, err, _, _, hc, _⟩ | ⟨vm, disks, _, _, _, h2⟩
    · rw [hget] at hg
      simp at hg
    · rw [hdisk, raiseFirstDisk_cons] at hd
      simp at hd
    · rw [hclient] at hc
      simp at hc
    · rw [h2] at h
      simp at h
  · rw [hget] at hg
    simp only [Prod.mk.injEq, Option.some.injEq, and_true] at hg
    subst hg
    rw [hdisk, raiseFirstDisk_cons] at hd
    simp only [Option.some.injEq] at hd
    refine ⟨_, _, h, ?_, ?_⟩
    · intro ht
      rw [← hd, ht]
      rfl
    · intro t0 ts ht
      rw [← hd, ht]
      rfl

theorem CloneVm_first_disk_witness :
    (normalizeNics (cloneRequest ["24"] [50, 7]).VmCustomization.NicSpecification
        = Flow.next [⟨"255.255.255.0", "nic"⟩]
      ∧ (GetVM okEnv ⟨"site"⟩ "tpl" freshNet).1
        = (some ⟨⟨[⟨100, "disk"⟩], ""⟩, "host-1", ""⟩, none)
      ∧ okEnv.GetApiClient (GetVM okEnv ⟨"site"⟩ "tpl" freshNet).2 = none
      ∧ (cloneRequest ["24"] [50, 7]).Config.Disks = [⟨50, "disk"⟩, ⟨7, "disk"⟩])
      ∧ (∃ submitted reply,
          (CloneVm okEnv ⟨"site"⟩ "tpl" (cloneRequest ["24"] [50, 7]) freshNet).2.log
              = (GetVM okEnv ⟨"site"⟩ "tpl" freshNet).2.log
                ++ [⟨cloneHttpRequest okEnv "tpl" submitted, reply⟩]
            ∧ submitted.Config.Disks = [⟨100, "disk"⟩, ⟨7, "disk"⟩])
      ∧ ∃ submitted reply,
          (CloneVm okEnv ⟨"site"⟩ "tpl" (cloneRequest ["24"] [200, 7]) freshNet).2.log
              = (GetVM okEnv ⟨"site"⟩ "tpl" freshNet).2.log
                ++ [⟨cloneHttpRequest okEnv "tpl" submitted, reply⟩]
            ∧ submitted.Config.Disks = [⟨200, "disk"⟩, ⟨7, "disk"⟩] := by
  refine ⟨⟨by decide, by decide, by decide, by decide⟩, ?_, ?_⟩
  · obtain ⟨submitted, reply, hlog, _, hmax⟩ :=
      CloneVm_first_disk okEnv ⟨"site"⟩ "tpl" (cloneRequest ["24"] [50, 7]) freshNet
        [⟨"255.255.255.0", "nic"⟩] ⟨⟨[⟨100, "disk"⟩], ""⟩, "host-1", ""⟩ ⟨50, "disk"⟩
        [⟨7, "disk"⟩] (by decide) (by decide) (by decide) (by decide)
    exact ⟨submitted, reply, hlog, hmax ⟨100, "disk"⟩ [] rfl⟩
  · obtain ⟨submitted, reply, hlog, _, hmax⟩ :=
      CloneVm_first_disk okEnv ⟨"site"⟩ "tpl" (cloneRequest ["24"] [200, 7]) freshNet
        [⟨"255.255.255.0", "nic"⟩] ⟨⟨[⟨100, "disk"⟩], ""⟩, "host-1", ""⟩ ⟨200, "disk"⟩
        [⟨7, "disk"⟩] (by decide) (by decide) (by decide) (by decide)
    exact ⟨submitted, reply, hlog, hmax ⟨100, "disk"⟩ [] rfl⟩

/-- **C5.** If some NIC of the request, at any index, has a netmask with no `.`
that `strconv.Atoi` rejects, `CloneVm` returns a nil response and a non-nil
error and leaves the network untouched: the client is not asked for and no
request is issued. -/
theorem CloneVm_unparseable_netmask (env : Env) (m : manager) (uri : String)
    (request : CloneVmRequest) (net : Net) (i : Nat) (nic : NicSpecification) (cause : Error)
    (hget : request.VmCustomization.NicSpecification[i]? = some nic)
    (hno : strings.Contains nic.Netmask "." = false)
    (hbad : strconv.Atoi nic.Netmask = Except.error cause) :
    ∃ err, CloneVm env m uri request net = (some (none, some err), net)
      ∧ issued net (CloneVm env m uri request net).2 = [] := by
  have hfail : ∃ err, normalizeNics request.VmCustomization.NicSpecification
      = Flow.fail err := by
    rcases Nat.eq_zero_or_pos i with h0 | h0
    · subst h0
      exact ⟨_, normalizeNics_fails_first _ nic hget hno cause hbad⟩
    · obtain ⟨c, hc⟩ := normalizeNics_fails_later _ i h0 nic hget hno
      exact ⟨_, hc⟩
  obtain ⟨err, he⟩ := hfail
  have h := CloneVm_of_fail env m uri request net err he
  exact ⟨err, h, by rw [h]; exact issued_self net⟩

theorem CloneVm_unparseable_netmask_witness :
    ((cloneRequest ["255.255.255.0", "abc"] [50]).VmCustomization.NicSpecification[1]?
        = some ⟨"abc", "nic"⟩
      ∧ strings.Contains "abc" "." = false
      ∧ strconv.Atoi "abc" = Except.error (Error.numError "Atoi" "abc" NumErr.invalidSyntax))
      ∧ ∃ err, CloneVm okEnv ⟨"site"⟩ "tpl" (cloneRequest ["255.255.255.0", "abc"] [50])
            freshNet = (some (none, some err), freshNet)
          ∧ issued freshNet (CloneVm okEnv ⟨"site"⟩ "tpl"
              (cloneRequest ["255.255.255.0", "abc"] [50]) freshNet).2 = [] :=
  ⟨⟨by decide, by decide, by decide⟩,
    CloneVm_unparseable_netmask okEnv ⟨"site"⟩ "tpl"
      (cloneRequest ["255.255.255.0", "abc"] [50]) freshNet 1 ⟨"abc", "nic"⟩
      (Error.numError "Atoi" "abc" NumErr.invalidSyntax) (by decide) (by decide) (by decide)⟩

/-- **C10.** If a NIC at an index of at least one has a netmask with no `.`,
`CloneVm` returns a nil response and a "can not parse netmask" error and
leaves the network untouched, whatever the netmasks are, valid prefix lengths
included. -/
theorem CloneVm_later_nic_fails (env : Env) (m : manager) (uri : String)
    (request : CloneVmRequest) (net : Net) (i : Nat) (nic : NicSpecification)
    (hi : 1 ≤ i) (hget : request.VmCustomization.NicSpecification[i]? = some nic)
    (hno : strings.Contains nic.Netmask "." = false) :
    ∃ cause, CloneVm env m uri request net
        = (some (none, some (Error.cannotParseNetmask cause)), net)
      ∧ issued net (CloneVm env m uri request net).2 = [] := by
  obtain ⟨cause, hc⟩ := normalizeNics_fails_later _ i hi nic hget hno
  have h := CloneVm_of_fail env m uri request net _ hc
  exact ⟨cause, h, by rw [h]; exact issued_self net⟩

theorem CloneVm_later_nic_fails_witness :
    ((1 : Nat) ≤ 2
      ∧ (cloneRequest ["24", "16", "8"] [50]).VmCustomization.NicSpecification[2]?
        = some ⟨"8", "nic"⟩
      ∧ strings.Contains "8" "." = false)
      ∧ ∃ cause, CloneVm okEnv ⟨"site"⟩ "tpl" (cloneRequest ["24", "16", "8"] [50]) freshNet
            = (some (none, some (Error.cannotParseNetmask cause)), freshNet)
          ∧ issued freshNet (CloneVm okEnv ⟨"site"⟩ "tpl"
              (cloneRequest ["24", "16", "8"] [50]) freshNet).2 = [] :=
  ⟨⟨by decide, by decide, by decide⟩,
    CloneVm_later_nic_fails okEnv ⟨"site"⟩ "tpl" (cloneRequest ["24", "16", "8"] [50])
      freshNet 2 ⟨"8", "nic"⟩ (by decide) (by decide) (by decide)⟩

/-! ## The operations as HTTP exchanges -/

/-- **C7.** For each of `ListVm`, `GetVM`, `CloneVm`, `StartVm`, `DeleteVm`,
`RebootVM`, `MigrateVM` and `UploadImage`, from every network state: if a
request the operation issued completed with a non-success status, the
operation returns no result together with exactly
`common.FormatHttpError` of that response; and no run returns a result
together with an error. -/
theorem http_failure_uniform (env : Env) (m : manager) (net : Net) :
    (∀ isTemplate, Uniform env net (ListVm env m isTemplate net))
      ∧ (∀ vmUri, Uniform env net (GetVM env m vmUri net))
      ∧ (∀ uri request, UniformOrPanic env net (CloneVm env m uri request net))
      ∧ (∀ vmUri, Uniform env net (StartVm env m vmUri net))
      ∧ (∀ vmUri, Uniform env net (DeleteVm env m vmUri net))
      ∧ (∀ vmUri safe, Uniform env net (RebootVM env m vmUri safe net))
      ∧ (∀ vmUri hostUrn isBindingHost,
          Uniform env net (MigrateVM env m vmUri hostUrn isBindingHost net))
      ∧ (∀ vmUri request, Uniform env net (UploadImage env m vmUri request net)) := by
  refine ⟨?_, ?_, ?_, ?_, ?_, ?_, ?_, ?_⟩
  · intro isTemplate
    rw [ListVm_eq]
    exact oneShot_uniform env _ (finishList_noPartial env) (finishList_failure env) _ net
  · intro vmUri
    rw [GetVM_eq]
    exact oneShot_uniform env _ (finish_noPartial env _) (finish_failure env _) _ net
  · intro uri request
    exact CloneVm_uniform env m uri request net
  · intro vmUri
    rw [StartVm_eq]
    exact oneShot_uniform env _ (finish_noPartial env _) (finish_failure env _) _ net
  · intro vmUri
    rw [DeleteVm_eq]
    exact oneShot_uniform env _ (finish_noPartial env _) (finish_failure env _) _ net
  · intro vmUri safe
    rw [RebootVM_eq]
    exact oneShot_uniform env _ (finish_noPartial env _) (finish_failure env _) _ net
  · intro vmUri hostUrn isBindingHost
    rw [MigrateVM_eq]
    exact oneShot_uniform env _ (finish_noPartial env _) (finish_failure env _) _ net
  · intro vmUri request
    rw [UploadImage_eq]
    exact oneShot_uniform env _ (finish_noPartial env _) (finish_failure env _) _ net

theorem http_failure_uniform_witness :
    ((issued freshNet (GetVM failingEnv ⟨"site"⟩ "vm" freshNet).2).map (fun ex => ex.reply)
        = [Except.ok ⟨500, "boom"⟩]
      ∧ (GetVM failingEnv ⟨"site"⟩ "vm" freshNet).1 = (none, some (Error.foreign "boom"))
      ∧ Uniform failingEnv freshNet (GetVM failingEnv ⟨"site"⟩ "vm" freshNet))
      ∧ (issued freshNet (CloneVm postFailingEnv ⟨"site"⟩ "tpl" (cloneRequest ["24"] [50])
          freshNet).2).map (fun ex => ex.reply)
        = [Except.ok ⟨200, "ok"⟩, Except.ok ⟨500, "boom"⟩]
      ∧ (CloneVm postFailingEnv ⟨"site"⟩ "tpl" (cloneRequest ["24"] [50]) freshNet).1
        = some (none, some (Error.foreign "boom"))
      ∧ UniformOrPanic postFailingEnv freshNet
          (CloneVm postFailingEnv ⟨"site"⟩ "tpl" (cloneRequest ["24"] [50]) freshNet) :=
  ⟨⟨by decide, by decide, (http_failure_uniform failingEnv ⟨"site"⟩ freshNet).2.1 "vm"⟩,
    by decide, by decide,
    (http_failure_uniform postFailingEnv ⟨"site"⟩ freshNet).2.2.1 "tpl"
      (cloneRequest ["24"] [50])⟩

/-- **C8.** Whenever the API client is obtained, `MigrateVM` issues exactly one
request: a POST to `path.Join(vmUri, "/action/migrate")` whose body is the
string map with the two entries `location`, mapped to `hostUrn` as given, and
`isBindingHost`, mapped to the string `true` or the string `false`. -/
theorem MigrateVM_body (env : Env) (m : manager) (vmUri hostUrn : String)
    (isBindingHost : Bool) (net : Net) (h : env.GetApiClient net = none) :
    ∃ reply, issued net (MigrateVM env m vmUri hostUrn isBindingHost net).2
      = [⟨⟨Method.POST, env.pathJoin [vmUri, "/action/migrate"], [],
            Body.stringMap [("location", hostUrn),
              ("isBindingHost", if isBindingHost then "true" else "false")]⟩, reply⟩] := by
  rw [MigrateVM_eq]
  exact ⟨_, oneShot_count env _ _ net h⟩

theorem MigrateVM_body_witness :
    okEnv.GetApiClient freshNet = none
      ∧ (∃ reply, issued freshNet (MigrateVM okEnv ⟨"site"⟩ "/vms/7" "urn:host:3" true
          freshNet).2
        = [⟨⟨Method.POST, "/vms/7//action/migrate", [],
              Body.stringMap [("location", "urn:host:3"), ("isBindingHost", "true")]⟩,
            reply⟩])
      ∧ ∃ reply, issued freshNet (MigrateVM okEnv ⟨"site"⟩ "/vms/7" "urn:host:3" false
          freshNet).2
        = [⟨⟨Method.POST, "/vms/7//action/migrate", [],
              Body.stringMap [("location", "urn:host:3"), ("isBindingHost", "false")]⟩,
            reply⟩] :=
  ⟨rfl, MigrateVM_body okEnv ⟨"site"⟩ "/vms/7" "urn:host:3" true freshNet rfl,
    MigrateVM_body okEnv ⟨"site"⟩ "/vms/7" "urn:host:3" false freshNet rfl⟩

/-- **C9, as the code behaves.** Whenever the API client is obtained, each of
`ListVm`, `GetVM`, `StartVm`, `DeleteVm`, `RebootVM`, `MigrateVM`,
`GetHostNameOf` and `UploadImage` issues exactly one request. `CloneVm`, once
its NIC loop has completed, issues the template GET and then, exactly when the
fetch returned a template, the first-disk adjustment did not panic and the
client was obtained again, the clone POST: one request or two. -/
theorem request_count (env : Env) (m : manager) (net : Net) (uri : String)
    (request : CloneVmRequest) (nics : List NicSpecification)
    (hclient : env.GetApiClient net = none)
    (hpre : normalizeNics request.VmCustomization.NicSpecification = Flow.next nics) :
    (∀ isTemplate, (issued net (ListVm env m isTemplate net).2).length = 1)
      ∧ (∀ vmUri, (issued net (GetVM env m vmUri net).2).length = 1)
      ∧ (∀ vmUri, (issued net (StartVm env m vmUri net).2).length = 1)
      ∧ (∀ vmUri, (issued net (DeleteVm env m vmUri net).2).length = 1)
      ∧ (∀ vmUri safe, (issued net (RebootVM env m vmUri safe net).2).length = 1)
      ∧ (∀ vmUri hostUrn isBindingHost,
          (issued net (MigrateVM env m vmUri hostUrn isBindingHost net).2).length = 1)
      ∧ (∀ vmUri, (issued net (GetHostNameOf env m vmUri net).2).length = 1)
      ∧ (∀ vmUri req, (issued net (UploadImage env m vmUri req net).2).length = 1)
      ∧ ((issued net (CloneVm env m uri request net).2).map (fun ex => ex.request.method)
            = [Method.GET]
          ∨ (issued net (CloneVm env m uri request net).2).map (fun ex => ex.request.method)
            = [Method.GET, Method.POST])
      ∧ ((issued net (CloneVm env m uri request net).2).length = 2 ↔
          ∃ vm disks, (GetVM env m uri net).1 = (some vm, none)
            ∧ raiseFirstDisk request.Config.Disks vm.VmConfig.Disks = some disks
            ∧ env.GetApiClient (GetVM env m uri net).2 = none) := by
  have hone : ∀ vmUri, issued net (GetVM env m vmUri net).2
      = [⟨getRequest vmUri, env.roundTrip (clientUsed net) (getRequest vmUri)⟩] := by
    intro vmUri
    rw [GetVM_eq]
    exact oneShot_count env _ _ net hclient
  have hclone : (issued net (CloneVm env m uri request net).2
        = [⟨getRequest uri, env.roundTrip (clientUsed net) (getRequest uri)⟩]
        ∧ ¬ ∃ vm disks, (GetVM env m uri net).1 = (some vm, none)
            ∧ raiseFirstDisk request.Config.Disks vm.VmConfig.Disks = some disks
            ∧ env.GetApiClient (GetVM env m uri net).2 = none)
      ∨ ∃ vm disks post, issued net (CloneVm env m uri request net).2
            = [⟨getRequest uri, env.roundTrip (clientUsed net) (getRequest uri)⟩,
                ⟨cloneHttpRequest env uri (submittedRequest request nics disks), post⟩]
          ∧ (GetVM env m uri net).1 = (some vm, none)
          ∧ raiseFirstDisk request.Config.Disks vm.VmConfig.Disks = some disks
          ∧ env.GetApiClient (GetVM env m uri net).2 = none := by
    rcases CloneVm_run env m uri request net nics hpre with
      ⟨err, hg, h⟩ | ⟨vm, hg, hd, h⟩ | ⟨vm, disks, err, hg, hd, hc, h⟩
        | ⟨vm, disks, hg, hd, hc, h⟩
    · left
      refine ⟨by rw [h]; exact hone uri, ?_⟩
      rintro ⟨vm, disks, hg2, _, _⟩
      rw [hg] at hg2
      simp at hg2
    · left
      refine ⟨by rw [h]; exact hone uri, ?_⟩
      rintro ⟨vm2, disks, hg2, hd2, _⟩
      rw [hg] at hg2
      simp only [Prod.mk.injEq, Option.some.injEq, and_true] at hg2
      subst hg2
      rw [hd] at hd2
      simp at hd2
    · left
      refine ⟨?_, ?_⟩
      · rw [h, ← hone uri]
        simp [issued, clientUsed]
      · rintro ⟨_, _, _, _, hc2⟩
        rw [hc] at hc2
        simp at hc2
    · right
      refine ⟨vm, disks, env.roundTrip (clientUsed (GetVM env m uri net).2)
        (cloneHttpRequest env uri (submittedRequest request nics disks)), ?_, hg, hd, hc⟩
      rw [h, issued_extend net (GetVM env m uri net).2 _ _ (GetVM_extends env m uri net) rfl,
        hone uri]
      rfl
  refine ⟨?_, ?_, ?_, ?_, ?_, ?_, ?_, ?_, ?_, ?_⟩
  · intro isTemplate
    rw [ListVm_eq, oneShot_count env _ _ net hclient]
    rfl
  · intro vmUri
    rw [hone vmUri]
    rfl
  · intro vmUri
    rw [StartVm_eq, oneShot_count env _ _ net hclient]
    rfl
  · intro vmUri
    rw [DeleteVm_eq, oneShot_count env _ _ net hclient]
    rfl
  · intro vmUri safe
    rw [RebootVM_eq, oneShot_count env _ _ net hclient]
    rfl
  · intro vmUri hostUrn isBindingHost
    rw [MigrateVM_eq, oneShot_count env _ _ net hclient]
    rfl
  · intro vmUri
    rw [GetHostNameOf_net, hone vmUri]
    rfl
  · intro vmUri req
    rw [UploadImage_eq, oneShot_count env _ _ net hclient]
    rfl
  · rcases hclone with ⟨h, _⟩ | ⟨_, _, _, h, _⟩
    · exact Or.inl (by rw [h]; rfl)
    · exact Or.inr (by rw [h]; rfl)
  · rcases hclone with ⟨h, hno⟩ | ⟨vm, disks, _, h, hrest⟩
    · constructor
      · intro hlen
        rw [h] at hlen
        simp at hlen
      · intro hex
        exact absurd hex hno
    · constructor
      · intro _
        exact ⟨vm, disks, hrest⟩
      · intro _
        rw [h]
        rfl

theorem request_count_witness :
    (okEnv.GetApiClient freshNet = none
      ∧ normalizeNics (cloneRequest ["24"] [50]).VmCustomization.NicSpecification
        = Flow.next [⟨"255.255.255.0", "nic"⟩])
      ∧ (issued freshNet (GetHostNameOf okEnv ⟨"site"⟩ "vm" freshNet).2).length = 1
      ∧ (issued freshNet (CloneVm okEnv ⟨"site"⟩ "tpl" (cloneRequest ["24"] [50])
          freshNet).2).length = 2 :=
  ⟨⟨rfl, by decide⟩,
    (request_count okEnv ⟨"site"⟩ freshNet "tpl" (cloneRequest ["24"] [50])
      [⟨"255.255.255.0", "nic"⟩] rfl (by decide)).2.2.2.2.2.2.1 "vm",
    by decide⟩

/-- **C9, counterexample.** On a platform that hands out the client and answers
every request with status 200, one call of `CloneVm` issues two requests, a
GET and then a POST, and neither meets a transport error. -/
theorem CloneVm_issues_two_requests :
    okEnv.GetApiClient freshNet = none
      ∧ (issued freshNet (CloneVm okEnv ⟨"site"⟩ "tpl" (cloneRequest ["24"] [50])
          freshNet).2).map (fun ex => (ex.request.method, ex.reply))
        = [(Method.GET, Except.ok ⟨200, "ok"⟩), (Method.POST, Except.ok ⟨200, "ok"⟩)] := by
  decide

end FusionCompute
